import Mathlib

/-!
# Verification of the object-graph duplication engine of `copy_opt.py`

A shallow embedding of the repository's copy engine (`src/copy_opt.py`), a
modified version of Python's `copy` module.  Python object identities
(`id(x)`) are modelled as indices into a heap (a list of objects); a value
held by a variable or a container slot is such an index.  The three
modifications the repository makes to the stock module are embedded
faithfully:

* the one-entry fast-path cache `deepcopy._last_id` / `deepcopy._last_obj`,
  process-global state on the `deepcopy` function, reset whenever `deepcopy`
  is called without a caller-supplied memo table;
* the `_IMMUTABLE_KEY_TYPES` allow-list used by `_deepcopy_dict` to skip the
  recursive `deepcopy` of keys and values of those types;
* the preallocation in `_deepcopy_list` (observable behaviour unchanged: the
  partially filled list is only ever reached through the memo table, by
  address).

Recursion is bounded by explicit fuel: running out of fuel models Python's
`RecursionError` on pathologically deep graphs (spec §5 accepts this).
Exceptions are an `Except` layer: `PyErr.copyError` is the module's own
`copy.Error` (the spec's `Uncopyable`); `PyErr.userError` is any exception
raised by user code (overrides, factories), which the engine propagates
unchanged; `PyErr.badAddr` is a model artefact for dangling addresses and is
unreachable on well-formed heaps.
-/

namespace CopyOpt

/-- A Python object identity (`id(x)`): an index into the heap. -/
abbrev Addr := Nat

mutual

/-- A heap cell: one Python object.  Children of containers are addresses.
The constructors cover the kinds of object `copy_opt.py` dispatches on and
that the specification's claims mention; further registered atomic kinds
(`complex`, `range`, `slice`, `property`, code and weakref objects) behave
exactly like the atomic constructors below and are omitted. -/
inductive Obj where
  | pynone
  | ellipsis
  | notimpl
  | int (n : Int)
  | bool (b : Bool)
  | float (bits : Int)
  | str (s : String)
  | bytes (bs : List Nat)
  | tuple (es : List Addr)
  | list (es : List Addr)
  | dict (es : List (Addr × Addr))
  | set (es : List Addr)
  | frozenset (es : List Addr)
  | pytype (nm : String)
  | func (nm : String)
  | inst (cls : String) (caps : Caps) (attrs : List (String × Addr)) (sstate : Option Addr)

/-- The copy-relevant capabilities of a user-defined class: whether the class
is a metaclass instance (`issubclass(cls, type)`), its `__copy__` and
`__deepcopy__` overrides, whether it declares `__setstate__`, and its entries
in `copyreg.dispatch_table` / `__reduce_ex__` / `__reduce__`. -/
inductive Caps where
  | mk (isMeta : Bool) (copyOv : Option Ov) (deepOv : Option Ov) (setst : Bool)
      (dt : Option ReduceVal) (reduceEx : Option ReduceVal) (reduce : Option ReduceVal)

/-- What a `__copy__` / `__deepcopy__` override does when invoked: return a
fixed object, return the receiver itself, or raise an exception (which the
engine must propagate unchanged). -/
inductive Ov where
  | ret (a : Addr)
  | retSelf
  | raiseErr (msg : String)

/-- The value `rv` a reductor returns: either a string (`isinstance(rv, str)`
makes `copy`/`deepcopy` return `x` unchanged) or the reconstruction tuple
`(func, args, state, listiter, dictiter)` consumed by `_reconstruct`. -/
inductive ReduceVal where
  | asStr
  | build (fac : Factory) (args : List Addr) (state : Option Addr)
      (listiter : Option (List Addr)) (dictiter : Option (List (Addr × Addr)))

/-- The factory callable `func` of a reconstruction tuple.  `setNew` /
`frozensetNew` model `set.__reduce_ex__(4)` / `frozenset.__reduce_ex__(4)`,
whose single argument is a freshly built list of the elements; `newInst`
constructs an empty instance of a user class; `failing` is a factory that
raises (the engine must propagate its exception unchanged). -/
inductive Factory where
  | setNew
  | frozensetNew
  | newInst (cls : String) (caps : Caps)
  | failing (msg : String)

end

/-- The state threaded through one copying pass: the heap, the memo table
(an association list, newest entry first, so consing models
`memo[d] = y`), the keep-alive list `_keep_alive` maintains under
`memo[id(memo)]`, and the process-global pair
`deepcopy._last_id` / `deepcopy._last_obj` (`none` models both being `None`). -/
structure DState where
  heap : List Obj
  memo : List (Addr × Addr)
  keepAlive : List Addr
  cache : Option (Addr × Addr)

/-- Exceptions. `copyError` is `copy.Error` (the spec's `Uncopyable`), the
only error the engine itself raises; `userError` is an exception raised by
user code and propagated; `fuelOut` models `RecursionError`; `badAddr` is a
model artefact (dangling address), unreachable on well-formed heaps. -/
inductive PyErr where
  | copyError (msg : String)
  | userError (msg : String)
  | fuelOut
  | badAddr

/-- `memo.get(d, _nil)`: `none` plays the role of the `_nil` sentinel. -/
def memoGet (memo : List (Addr × Addr)) (d : Addr) : Option Addr :=
  List.lookup d memo

/-- Allocate a fresh object: its identity is the next unused address. -/
def alloc (st : DState) (o : Obj) : Addr × DState :=
  (st.heap.length, { st with heap := st.heap ++ [o] })

/-- Overwrite the object at an (existing) address: in-place mutation. -/
def heapSet (st : DState) (a : Addr) (o : Obj) : DState :=
  { st with heap := st.heap.set a o }

/-- Dereference an address. -/
def readObj (st : DState) (a : Addr) : Except PyErr Obj :=
  match st.heap[a]? with
  | some o => .ok o
  | none => .error .badAddr

/-- `isinstance(v, _IMMUTABLE_KEY_TYPES)` for
`_IMMUTABLE_KEY_TYPES = (int, float, str, bytes, frozenset, type(None))`
(line 241).  `bool` is a subclass of `int`, so `isinstance` accepts it too. -/
def isImmutableKV : Obj → Bool
  | .int _ => true
  | .bool _ => true
  | .float _ => true
  | .str _ => true
  | .bytes _ => true
  | .frozenset _ => true
  | .pynone => true
  | _ => false

/-- A container in the sense of the spec's data model (§3): a built-in
aggregate with enumerable children — ordered sequences (`list`, `tuple`),
mappings (`dict`) and sets (`set`, `frozenset`). -/
def isContainer : Obj → Bool
  | .list _ => true
  | .tuple _ => true
  | .dict _ => true
  | .set _ => true
  | .frozenset _ => true
  | _ => false

/-- A mutable built-in object (can change after construction). -/
def isMutable : Obj → Bool
  | .list _ => true
  | .dict _ => true
  | .set _ => true
  | .inst _ _ _ _ => true
  | _ => false

/-- An atomic object: one whose registered copy strategy is
`_deepcopy_atomic` / `_copy_immutable` (return the argument itself). -/
def isAtomicObj : Obj → Bool
  | .pynone => true
  | .ellipsis => true
  | .notimpl => true
  | .int _ => true
  | .bool _ => true
  | .float _ => true
  | .str _ => true
  | .bytes _ => true
  | .pytype _ => true
  | .func _ => true
  | _ => false

/-- Copy each element of a list with `f` (the recursive `deepcopy` of the
current pass), left to right, threading the state. -/
def copyChildren (f : Addr → DState → Except PyErr (Addr × DState)) :
    List Addr → DState → Except PyErr (List Addr × DState)
  | [], st => .ok ([], st)
  | e :: rest, st =>
    match f e st with
    | .error err => .error err
    | .ok (e', st') =>
      match copyChildren f rest st' with
      | .error err => .error err
      | .ok (rest', st'') => .ok (e' :: rest', st'')

/-- Copy each `(key, value)` pair with `f` (used by `_reconstruct` for
`dictiter`: both components are always deep-copied, no allow-list). -/
def copyPairs (f : Addr → DState → Except PyErr (Addr × DState)) :
    List (Addr × Addr) → DState → Except PyErr (List (Addr × Addr) × DState)
  | [], st => .ok ([], st)
  | (k, v) :: rest, st =>
    match f k st with
    | .error err => .error err
    | .ok (k', st1) =>
      match f v st1 with
      | .error err => .error err
      | .ok (v', st2) =>
        match copyPairs f rest st2 with
        | .error err => .error err
        | .ok (rest', st3) => .ok ((k', v') :: rest', st3)

/-- The entry loop of `_deepcopy_dict` (lines 246-257): for each key and each
value, reuse it directly when `isinstance(…, _IMMUTABLE_KEY_TYPES)`, deep-copy
it otherwise. -/
def copyDictEntries (f : Addr → DState → Except PyErr (Addr × DState)) :
    List (Addr × Addr) → DState → Except PyErr (List (Addr × Addr) × DState)
  | [], st => .ok ([], st)
  | (k, v) :: rest, st =>
    match readObj st k with
    | .error err => .error err
    | .ok ko =>
      match (if isImmutableKV ko then .ok (k, st) else f k st :
          Except PyErr (Addr × DState)) with
      | .error err => .error err
      | .ok (k', st1) =>
        match readObj st1 v with
        | .error err => .error err
        | .ok vo =>
          match (if isImmutableKV vo then .ok (v, st1) else f v st1 :
              Except PyErr (Addr × DState)) with
          | .error err => .error err
          | .ok (v', st2) =>
            match copyDictEntries f rest st2 with
            | .error err => .error err
            | .ok (rest', st3) => .ok ((k', v') :: rest', st3)

/-- Invoke a `__copy__` / `__deepcopy__` override on receiver `x`. -/
def runOv : Ov → Addr → DState → Except PyErr (Addr × DState)
  | .ret a, _, st => .ok (a, st)
  | .retSelf, x, st => .ok (x, st)
  | .raiseErr msg, _, _ => .error (.userError msg)

/-- Apply the factory `func(*args)` of a reconstruction tuple. -/
def applyFactory (fac : Factory) (args : List Addr) (st : DState) :
    Except PyErr (Addr × DState) :=
  match fac, args with
  | .setNew, [la] =>
    (match st.heap[la]? with
     | some (.list es) => let (y, st') := alloc st (.set es); .ok (y, st')
     | some _ => .error (.userError "TypeError")
     | none => .error .badAddr)
  | .setNew, _ => .error (.userError "TypeError")
  | .frozensetNew, [la] =>
    (match st.heap[la]? with
     | some (.list es) => let (y, st') := alloc st (.frozenset es); .ok (y, st')
     | some _ => .error (.userError "TypeError")
     | none => .error .badAddr)
  | .frozensetNew, _ => .error (.userError "TypeError")
  | .newInst cls caps, _ => let (y, st') := alloc st (.inst cls caps [] none); .ok (y, st')
  | .failing msg, _ => .error (.userError msg)

/-- Update one attribute of an instance's `__dict__` (replace or append). -/
def attrsUpd : List (String × Addr) → String → Addr → List (String × Addr)
  | [], k, v => [(k, v)]
  | (k', v') :: rest, k, v =>
    if k' = k then (k, v) :: rest else (k', v') :: attrsUpd rest k v

/-- `y.__dict__.update(state)` for a state dict: each key address must hold a
string (the attribute name); its value address is stored. -/
def applyDictState (st : DState) :
    List (String × Addr) → List (Addr × Addr) → Except PyErr (List (String × Addr))
  | attrs, [] => .ok attrs
  | attrs, (k, v) :: rest =>
    match st.heap[k]? with
    | some (.str s) => applyDictState st (attrsUpd attrs s v) rest
    | some _ => .error (.userError "TypeError")
    | none => .error .badAddr

/-- `for k, v in state: setattr(y, k, v)` for a sequence of explicit
`(name, value)` pairs. -/
def setattrPairs (st : DState) :
    List (String × Addr) → List Addr → Except PyErr (List (String × Addr))
  | attrs, [] => .ok attrs
  | attrs, p :: rest =>
    match st.heap[p]? with
    | some (.tuple [k, v]) =>
      (match st.heap[k]? with
       | some (.str s) => setattrPairs st (attrsUpd attrs s v) rest
       | some _ => .error (.userError "TypeError")
       | none => .error .badAddr)
    | some _ => .error (.userError "TypeError")
    | none => .error .badAddr

/-- The state-application block of `_reconstruct` (lines 301-330): prefer
`y.__setstate__(state)` (modelled as recording the argument on the instance);
otherwise update `y.__dict__` from a dict state, split a two-element tuple
into `(state, slotstate)` and apply each part, or fall back to iterating
explicit `(name, value)` pairs. -/
def applyState (y : Addr) (s : Addr) (st : DState) : Except PyErr DState :=
  match st.heap[y]? with
  | some (.inst cls caps attrs sstate) =>
    match caps with
    | .mk _ _ _ setst _ _ _ =>
      if setst then
        .ok (heapSet st y (.inst cls caps attrs (some s)))
      else
        match st.heap[s]? with
        | some (.dict entries) =>
          (match applyDictState st attrs entries with
           | .error err => .error err
           | .ok attrs' => .ok (heapSet st y (.inst cls caps attrs' sstate)))
        | some (.tuple [s1, s2]) =>
          (match (match st.heap[s1]? with
                  | some .pynone => .ok attrs
                  | some (.dict entries) => applyDictState st attrs entries
                  | some (.list ps) => setattrPairs st attrs ps
                  | some (.tuple ps) => setattrPairs st attrs ps
                  | some _ => .error (.userError "TypeError")
                  | none => .error .badAddr :
              Except PyErr (List (String × Addr))) with
           | .error err => .error err
           | .ok attrs1 =>
             match st.heap[s2]? with
             | some .pynone => .ok (heapSet st y (.inst cls caps attrs1 sstate))
             | some (.dict entries) =>
               (match applyDictState st attrs1 entries with
                | .error err => .error err
                | .ok attrs2 => .ok (heapSet st y (.inst cls caps attrs2 sstate)))
             | some _ => .error (.userError "TypeError")
             | none => .error .badAddr)
        | some (.list ps) =>
          (match setattrPairs st attrs ps with
           | .error err => .error err
           | .ok attrs' => .ok (heapSet st y (.inst cls caps attrs' sstate)))
        | some (.tuple ps) =>
          (match setattrPairs st attrs ps with
           | .error err => .error err
           | .ok attrs' => .ok (heapSet st y (.inst cls caps attrs' sstate)))
        | some _ => .error (.userError "TypeError")
        | none => .error .badAddr
  | some _ => .error (.userError "AttributeError")
  | none => .error .badAddr

/-- The construction phase of `_reconstruct` (lines 289-298): deep-copy the
factory arguments when `deep`, call `func(*args)`, and — when `deep` —
memoize `memo[id(x)] = y` immediately, before any state is applied. -/
def reconstructBuild (f : Addr → DState → Except PyErr (Addr × DState))
    (deep : Bool) (x : Addr) (fac : Factory) (args : List Addr) (st : DState) :
    Except PyErr (Addr × DState) :=
  match (if deep && !args.isEmpty then copyChildren f args st else .ok (args, st) :
      Except PyErr (List Addr × DState)) with
  | .error err => .error err
  | .ok (args', st1) =>
    match applyFactory fac args' st1 with
    | .error err => .error err
    | .ok (y, st2) =>
      .ok (y, if deep then { st2 with memo := (x, y) :: st2.memo } else st2)

/-- `_reconstruct(x, memo, func, args, state, listiter, dictiter)`
(lines 286-346): construct (memoizing first when deep), then apply state,
then extend from `listiter`, then update from `dictiter`. -/
def _reconstruct (f : Addr → DState → Except PyErr (Addr × DState))
    (deep : Bool) (x : Addr) (fac : Factory) (args : List Addr)
    (state : Option Addr) (listiter : Option (List Addr))
    (dictiter : Option (List (Addr × Addr))) (st : DState) :
    Except PyErr (Addr × DState) :=
  match reconstructBuild f deep x fac args st with
  | .error err => .error err
  | .ok (y, st3) =>
    match (match state with
           | none => .ok st3
           | some s0 =>
             match (if deep then f s0 st3 else .ok (s0, st3) :
                 Except PyErr (Addr × DState)) with
             | .error err => .error err
             | .ok (s, st4) => applyState y s st4 :
        Except PyErr DState) with
    | .error err => .error err
    | .ok st5 =>
      match (match listiter with
             | none => .ok st5
             | some items =>
               match (if deep then copyChildren f items st5 else .ok (items, st5) :
                   Except PyErr (List Addr × DState)) with
               | .error err => .error err
               | .ok (items', st6) =>
                 match st6.heap[y]? with
                 | some (.list es) => .ok (heapSet st6 y (.list (es ++ items')))
                 | some _ => .error (.userError "AttributeError")
                 | none => .error .badAddr :
          Except PyErr DState) with
      | .error err => .error err
      | .ok st7 =>
        match (match dictiter with
               | none => .ok st7
               | some pairs =>
                 match (if deep then copyPairs f pairs st7 else .ok (pairs, st7) :
                     Except PyErr (List (Addr × Addr) × DState)) with
                 | .error err => .error err
                 | .ok (pairs', st8) =>
                   match st8.heap[y]? with
                   | some (.dict des) => .ok (heapSet st8 y (.dict (des ++ pairs')))
                   | some _ => .error (.userError "AttributeError")
                   | none => .error .badAddr :
            Except PyErr DState) with
        | .error err => .error err
        | .ok st9 => .ok (y, st9)

/-- `if isinstance(rv, str): y = x  else: y = _reconstruct(x, memo, *rv)`
(lines 180-183), for the deep path. -/
def handleRv (f : Addr → DState → Except PyErr (Addr × DState))
    (x : Addr) (rv : ReduceVal) (st : DState) : Except PyErr (Addr × DState) :=
  match rv with
  | .asStr => .ok (x, st)
  | .build fac args state li di => _reconstruct f true x fac args state li di st

/-- `_deepcopy_list` (lines 215-222): preallocate the destination, memoize it
under `id(x)` before recursing into the children, then fill the slots.  The
preallocated placeholder is only ever reached through the memo, by address,
so writing the elements at the end is observably the same as filling the
slots one by one. -/
def _deepcopy_list (f : Addr → DState → Except PyErr (Addr × DState))
    (x : Addr) (es : List Addr) (st : DState) : Except PyErr (Addr × DState) :=
  let (y, st1) := alloc st (.list [])
  let st2 := { st1 with memo := (x, y) :: st1.memo }
  match copyChildren f es st2 with
  | .error err => .error err
  | .ok (es', st3) => .ok (y, heapSet st3 y (.list es'))

/-- `_deepcopy_tuple` (lines 225-239): copy the elements first, then check
the memo (a cycle through the tuple may have memoized it); if every element's
copy `is` the original element, return the original tuple, otherwise build a
fresh one.  The tuple itself is not memoized here. -/
def _deepcopy_tuple (f : Addr → DState → Except PyErr (Addr × DState))
    (x : Addr) (es : List Addr) (st : DState) : Except PyErr (Addr × DState) :=
  match copyChildren f es st with
  | .error err => .error err
  | .ok (es', st1) =>
    match memoGet st1.memo x with
    | some m => .ok (m, st1)
    | none =>
      if es' = es then .ok (x, st1)
      else let (y, st2) := alloc st1 (.tuple es'); .ok (y, st2)

/-- `_deepcopy_dict` (lines 243-258): memoize a fresh empty dict under
`id(x)` before recursing, then copy the entries, reusing keys and values
whose type is in `_IMMUTABLE_KEY_TYPES`. -/
def _deepcopy_dict (f : Addr → DState → Except PyErr (Addr × DState))
    (x : Addr) (es : List (Addr × Addr)) (st : DState) : Except PyErr (Addr × DState) :=
  let (y, st1) := alloc st (.dict [])
  let st2 := { st1 with memo := (x, y) :: st1.memo }
  match copyDictEntries f es st2 with
  | .error err => .error err
  | .ok (es', st3) => .ok (y, heapSet st3 y (.dict es'))

/-- The strategy-resolution body of `deepcopy` (lines 153-183): the
`_deepcopy_dispatch` lookup, the `issubclass(cls, type)` check, the
`__deepcopy__` override, and the reductor chain
`dispatch_table / __reduce_ex__(4) / __reduce__`, failing with
`copy.Error("un(deep)copyable object of type %s")`.  `set` and `frozenset`
have no dispatch entry: they reach `__reduce_ex__(4)`, which returns
`(cls, (list(x),), None)` — building a fresh list of the elements. -/
def deepcopyMain (f : Addr → DState → Except PyErr (Addr × DState))
    (x : Addr) (st : DState) : Except PyErr (Addr × DState) :=
  match readObj st x with
  | .error err => .error err
  | .ok o =>
    match o with
    | .pynone => .ok (x, st)
    | .ellipsis => .ok (x, st)
    | .notimpl => .ok (x, st)
    | .int _ => .ok (x, st)
    | .bool _ => .ok (x, st)
    | .float _ => .ok (x, st)
    | .str _ => .ok (x, st)
    | .bytes _ => .ok (x, st)
    | .pytype _ => .ok (x, st)
    | .func _ => .ok (x, st)
    | .list es => _deepcopy_list f x es st
    | .tuple es => _deepcopy_tuple f x es st
    | .dict es => _deepcopy_dict f x es st
    | .set es =>
      let (la, st1) := alloc st (.list es)
      _reconstruct f true x .setNew [la] none none none st1
    | .frozenset es =>
      let (la, st1) := alloc st (.list es)
      _reconstruct f true x .frozensetNew [la] none none none st1
    | .inst cls caps _ _ =>
      match caps with
      | .mk isMeta _ deepOv _ dt reduceEx reduce =>
        if isMeta then .ok (x, st)
        else
          match deepOv with
          | some ov => runOv ov x st
          | none =>
            match dt with
            | some rv => handleRv f x rv st
            | none =>
              match reduceEx with
              | some rv => handleRv f x rv st
              | none =>
                match reduce with
                | some rv => handleRv f x rv st
                | none =>
                  .error (.copyError ("un(deep)copyable object of type " ++ cls))

/-- The body of `deepcopy` after the fast-path cache check (lines 147-192):
memo lookup (a hit updates the cache and returns the stored copy), strategy
resolution, then — when the copy `is not` the original — memoization and
`_keep_alive`, and finally the cache update. -/
def deepcopyCore (f : Addr → DState → Except PyErr (Addr × DState))
    (x : Addr) (st : DState) : Except PyErr (Addr × DState) :=
  match memoGet st.memo x with
  | some y => .ok (y, { st with cache := some (x, y) })
  | none =>
    match deepcopyMain f x st with
    | .error err => .error err
    | .ok (y, st') =>
      let st'' :=
        if y ≠ x then { st' with memo := (x, y) :: st'.memo, keepAlive := x :: st'.keepAlive }
        else st'
      .ok (y, { st'' with cache := some (x, y) })

/-- `deepcopy(x, memo)` (lines 130-192), fuel-bounded.  The first step is the
fast-path check `deepcopy._last_id == d`, which on a hit returns
`deepcopy._last_obj` without touching the memo table. -/
def deepcopy : Nat → Addr → DState → Except PyErr (Addr × DState)
  | 0, _, _ => .error .fuelOut
  | fuel+1, x, st =>
    match st.cache with
    | some (lastId, lastObj) =>
      if lastId = x then .ok (lastObj, st)
      else deepcopyCore (fun a s => deepcopy fuel a s) x st
    | none => deepcopyCore (fun a s => deepcopy fuel a s) x st

/-- A consumer-visible call `deepcopy(x)` or `deepcopy(x, memo)`
(lines 136-139).  `cache0` is the ambient value of the process-global pair
`deepcopy._last_id` / `deepcopy._last_obj` left behind by earlier calls; a
call without a caller-supplied memo resets it and starts a fresh memo table,
a call with one keeps both. -/
def deepcopyEntry (heap : List Obj) (cache0 : Option (Addr × Addr))
    (memoArg : Option (List (Addr × Addr))) (x : Addr) (fuel : Nat) :
    Except PyErr (Addr × DState) :=
  match memoArg with
  | none => deepcopy fuel x { heap := heap, memo := [], keepAlive := [], cache := none }
  | some m => deepcopy fuel x { heap := heap, memo := m, keepAlive := [], cache := cache0 }

/-- A callback for `_reconstruct` with `deep = false` (`copy` passes
`memo=None`): never invoked, because every use of the callback in
`_reconstruct` is guarded by `deep`. -/
def idF : Addr → DState → Except PyErr (Addr × DState) := fun a st => .ok (a, st)

/-- `copy(x)` (lines 66-104): the `_copy_dispatch` lookup (atomic kinds and
`tuple`/`frozenset` map to `_copy_immutable`; `list.copy`, `dict.copy`,
`set.copy` build a new container holding the same child references), the
`issubclass(cls, type)` check, the `__copy__` override, and the reductor
chain, failing with `copy.Error("un(shallow)copyable object of type %s")`. -/
def copy (x : Addr) (st : DState) : Except PyErr (Addr × DState) :=
  match st.heap[x]? with
  | none => .error .badAddr
  | some o =>
    match o with
    | .pynone => .ok (x, st)
    | .ellipsis => .ok (x, st)
    | .notimpl => .ok (x, st)
    | .int _ => .ok (x, st)
    | .bool _ => .ok (x, st)
    | .float _ => .ok (x, st)
    | .str _ => .ok (x, st)
    | .bytes _ => .ok (x, st)
    | .pytype _ => .ok (x, st)
    | .func _ => .ok (x, st)
    | .tuple _ => .ok (x, st)
    | .frozenset _ => .ok (x, st)
    | .list es => let (y, st') := alloc st (.list es); .ok (y, st')
    | .dict es => let (y, st') := alloc st (.dict es); .ok (y, st')
    | .set es => let (y, st') := alloc st (.set es); .ok (y, st')
    | .inst cls caps _ _ =>
      match caps with
      | .mk isMeta copyOv _ _ dt reduceEx reduce =>
        if isMeta then .ok (x, st)
        else
          match copyOv with
          | some ov => runOv ov x st
          | none =>
            match dt with
            | some rv =>
              (match rv with
               | .asStr => .ok (x, st)
               | .build fac args state li di => _reconstruct idF false x fac args state li di st)
            | none =>
              match reduceEx with
              | some rv =>
                (match rv with
                 | .asStr => .ok (x, st)
                 | .build fac args state li di => _reconstruct idF false x fac args state li di st)
              | none =>
                match reduce with
                | some rv =>
                  (match rv with
                   | .asStr => .ok (x, st)
                   | .build fac args state li di => _reconstruct idF false x fac args state li di st)
                | none =>
                  .error (.copyError ("un(shallow)copyable object of type " ++ cls))

/-- A fresh pass state over a given heap (no memo, no cache, nothing kept
alive): what one consumer-level call starts from. -/
def initSt (heap : List Obj) : DState :=
  { heap := heap, memo := [], keepAlive := [], cache := none }

/-- Run a consumer-level `deepcopy(x)` and project the result to the copy's
address and the final heap. -/
def runDC (heap : List Obj) (x : Addr) : Option (Addr × List Obj) :=
  match deepcopyEntry heap none none x 64 with
  | .ok (y, st) => some (y, st.heap)
  | .error _ => none

/-- Run a consumer-level `copy(x)` and project the result to the copy's
address and the final heap. -/
def runSC (heap : List Obj) (x : Addr) : Option (Addr × List Obj) :=
  match copy x (initSt heap) with
  | .ok (y, st) => some (y, st.heap)
  | .error _ => none

/-- `y[k]` for a dict object `y` whose key `k` is a string: the address
stored under the first key whose object is the string `k`. -/
def dictLookup (heap : List Obj) (y : Addr) (k : String) : Option Addr :=
  match heap[y]? with
  | some (.dict es) =>
    (es.find? (fun p =>
      match heap[p.1]? with
      | some (Obj.str s) => s = k
      | _ => false)).map (·.2)
  | _ => none

/-- `y[i]` for a list or tuple object `y`. -/
def seqNth (heap : List Obj) (y : Addr) (i : Nat) : Option Addr :=
  match heap[y]? with
  | some (.list es) => es[i]?
  | some (.tuple es) => es[i]?
  | _ => none

/-- The attribute named `k` of an instance object. -/
def attrLookup (heap : List Obj) (y : Addr) (k : String) : Option Addr :=
  match heap[y]? with
  | some (.inst _ _ attrs _) => List.lookup k attrs
  | _ => none

/-- A structural value: the shape of an object graph with identities erased,
used to state element-wise (structural) equality of copies. -/
inductive SVal where
  | vnone
  | vellipsis
  | vnotimpl
  | vint (n : Int)
  | vbool (b : Bool)
  | vfloat (bits : Int)
  | vstr (s : String)
  | vbytes (bs : List Nat)
  | vtuple (vs : List SVal)
  | vlist (vs : List SVal)
  | vdict (vs : List (SVal × SVal))
  | vset (vs : List SVal)
  | vfrozenset (vs : List SVal)
  | vtype (nm : String)
  | vfunc (nm : String)
  | vinst (cls : String) (attrs : List (String × SVal))

/-- Read the structural values of a list of children with `g`. -/
def viewList (g : Addr → Option SVal) : List Addr → Option (List SVal)
  | [] => some []
  | e :: es => (g e).bind (fun v => (viewList g es).map (fun vs => v :: vs))

/-- Read the structural values of a list of key/value pairs with `g`. -/
def viewEntries (g : Addr → Option SVal) :
    List (Addr × Addr) → Option (List (SVal × SVal))
  | [] => some []
  | (k, v) :: es =>
    (g k).bind (fun kv => (g v).bind (fun vv =>
      (viewEntries g es).map (fun vs => (kv, vv) :: vs)))

/-- Read the structural values of an instance's attributes with `g`. -/
def viewAttrs (g : Addr → Option SVal) :
    List (String × Addr) → Option (List (String × SVal))
  | [] => some []
  | (s, v) :: es =>
    (g v).bind (fun vv => (viewAttrs g es).map (fun vs => (s, vv) :: vs))

/-- Read the structural value of the object graph rooted at `a` (depth
bounded by fuel; `none` on dangling addresses or insufficient fuel). -/
def view : Nat → List Obj → Addr → Option SVal
  | 0, _, _ => none
  | fuel+1, h, a =>
    match h[a]? with
    | none => none
    | some o =>
      match o with
      | .pynone => some .vnone
      | .ellipsis => some .vellipsis
      | .notimpl => some .vnotimpl
      | .int n => some (.vint n)
      | .bool b => some (.vbool b)
      | .float bits => some (.vfloat bits)
      | .str s => some (.vstr s)
      | .bytes bs => some (.vbytes bs)
      | .pytype nm => some (.vtype nm)
      | .func nm => some (.vfunc nm)
      | .tuple es => (viewList (view fuel h) es).map .vtuple
      | .list es => (viewList (view fuel h) es).map .vlist
      | .dict es => (viewEntries (view fuel h) es).map .vdict
      | .set es => (viewList (view fuel h) es).map .vset
      | .frozenset es => (viewList (view fuel h) es).map .vfrozenset
      | .inst cls _ attrs _ =>
        (viewAttrs (view fuel h) attrs).map (fun l => SVal.vinst cls l)

/-! ### Concrete heaps for the specification's scenarios -/

/-- `shared = {"k": v}; data = {"a": shared, "b": shared}` — addresses:
`0 ↦ "k"`, `1 ↦ v`, `2 ↦ shared`, `3 ↦ "a"`, `4 ↦ "b"`, `5 ↦ data`. -/
def sharedDictHeap (v : Int) : List Obj :=
  [.str "k", .int v, .dict [(0, 1)], .str "a", .str "b", .dict [(3, 2), (4, 2)]]

/-- `fs = frozenset({1}); data = {"a": fs, "b": [fs]}` — addresses:
`0 ↦ 1`, `1 ↦ fs`, `2 ↦ "a"`, `3 ↦ "b"`, `4 ↦ [fs]`, `5 ↦ data`.
The same object `fs` occupies two positions of the input graph. -/
def aliasingCexHeap : List Obj :=
  [.int 1, .frozenset [0], .str "a", .str "b", .list [1], .dict [(2, 1), (3, 4)]]

/-- `{"a": frozenset({1})}` — addresses: `0 ↦ 1`, `1 ↦ fs`, `2 ↦ "a"`,
`3 ↦ the dict`. -/
def fsValueHeap : List Obj := [.int 1, .frozenset [0], .str "a", .dict [(2, 1)]]

/-- `{"a": 5}` — addresses: `0 ↦ 5`, `1 ↦ "a"`, `2 ↦ the dict`. -/
def intValueHeap : List Obj := [.int 5, .str "a", .dict [(1, 0)]]

/-- `{"a": [5]}` — addresses: `0 ↦ 5`, `1 ↦ "a"`, `2 ↦ [5]`, `3 ↦ the dict`. -/
def listValueHeap : List Obj := [.int 5, .str "a", .list [0], .dict [(1, 2)]]

/-- `(m, s)` — a tuple of two atomics at address 2. -/
def atomTupleHeap (m : Int) (s : String) : List Obj := [.int m, .str s, .tuple [0, 1]]

/-- `((1, 2),)` — a tuple whose single element is itself a (all-atomic)
tuple, at address 3. -/
def nestedTupleHeap : List Obj := [.int 1, .int 2, .tuple [0, 1], .tuple [2]]

/-- `([m],)` — a tuple whose single element is a list, at address 2. -/
def listTupleHeap (m : Int) : List Obj := [.int m, .list [0], .tuple [1]]

/-- `[m, s]`, `{s: m}` and `{m}` over the atoms `m`, `s`: the three mutable
built-in containers, at addresses 2, 3 and 4. -/
def mutContainersHeap (m : Int) (s : String) : List Obj :=
  [.int m, .str s, .list [0, 1], .dict [(1, 0)], .set [0]]

/-- A user class with no copy capability at all: no `__copy__`, no
`__deepcopy__`, no `dispatch_table` entry, no `__reduce_ex__`, no
`__reduce__`. -/
def plainCaps : Caps := .mk false none none false none none none

/-- A class whose `__reduce_ex__(4)` returns
`(Node, (), {"self": x})`: reconstruction with self-referential state. -/
def nodeCaps : Caps :=
  .mk false none none false none
    (some (.build (.newInst "Node" plainCaps) [] (some 1) none none)) none

/-- `x = Node(); x.self = x` under `nodeCaps` — addresses: `0 ↦ "self"`,
`1 ↦ {"self": x}` (the state dict), `2 ↦ x`. -/
def selfRefHeap : List Obj := [.str "self", .dict [(0, 2)], .inst "Node" nodeCaps [("self", 2)] none]

/-- Three allocated lists; used to exhibit the fast-path cache's behaviour
under a caller-supplied memo table. -/
def cacheHeap : List Obj := [.list [], .list [], .list []]

/-- Pure tree values. -/
inductive PV where
  | pint (n : Int)
  | pstr (s : String)
  | plist (xs : List PV)
  | ptuple (xs : List PV)
  | pdict (es : List (String × PV))

mutual
def PV.size : PV → Nat
  | .pint _ => 1
  | .pstr _ => 1
  | .plist xs => PV.sizeL xs + 1
  | .ptuple xs => PV.sizeL xs + 1
  | .pdict es => PV.sizeE es + 1
def PV.sizeL : List PV → Nat
  | [] => 0
  | x :: xs => PV.size x + PV.sizeL xs
def PV.sizeE : List (String × PV) → Nat
  | [] => 0
  | (_, x) :: xs => PV.size x + PV.sizeE xs
end

mutual
def pvView : PV → SVal
  | .pint n => .vint n
  | .pstr s => .vstr s
  | .plist xs => .vlist (pvViewL xs)
  | .ptuple xs => .vtuple (pvViewL xs)
  | .pdict es => .vdict (pvViewE es)
def pvViewL : List PV → List SVal
  | [] => []
  | x :: xs => pvView x :: pvViewL xs
def pvViewE : List (String × PV) → List (SVal × SVal)
  | [] => []
  | (s, x) :: xs => (.vstr s, pvView x) :: pvViewE xs
end

mutual
inductive TreeA (h : List Obj) : Addr → PV → List Addr → Prop
  | int : h[a]? = some (.int n) → TreeA h a (.pint n) [a]
  | str : h[a]? = some (.str s) → TreeA h a (.pstr s) [a]
  | list : h[a]? = some (.list es) → TreeAList h es pvs Ls → TreeA h a (.plist pvs) (a :: Ls)
  | tup : h[a]? = some (.tuple es) → TreeAList h es pvs Ls → TreeA h a (.ptuple pvs) (a :: Ls)
  | dict : h[a]? = some (.dict kvs) → TreeAEntries h kvs spvs Ls → TreeA h a (.pdict spvs) (a :: Ls)
inductive TreeAList (h : List Obj) : List Addr → List PV → List Addr → Prop
  | nil : TreeAList h [] [] []
  | cons : TreeA h e pv L → TreeAList h es pvs Ls → TreeAList h (e :: es) (pv :: pvs) (L ++ Ls)
inductive TreeAEntries (h : List Obj) : List (Addr × Addr) → List (String × PV) → List Addr → Prop
  | nil : TreeAEntries h [] [] []
  | cons : h[k]? = some (.str s) → TreeA h v pv L → TreeAEntries h kvs spvs Ls →
      TreeAEntries h ((k, v) :: kvs) ((s, pv) :: spvs) (k :: (L ++ Ls))
end

/-- Unfolding lemma: one step of the fuelled `deepcopy`. -/
theorem deepcopy_succ (fuel : Nat) (x : Addr) (st : DState) :
    deepcopy (fuel + 1) x st =
      match st.cache with
      | some (lastId, lastObj) =>
        if lastId = x then .ok (lastObj, st)
        else deepcopyCore (fun a s => deepcopy fuel a s) x st
      | none => deepcopyCore (fun a s => deepcopy fuel a s) x st := rfl

theorem getPreserve {A B : List Obj} {i : Nat} {x : Obj} (h : A[i]? = some x) :
    (A ++ B)[i]? = some x := by
  rw [List.getElem?_append, if_pos (List.getElem?_eq_some.mp h).1]; exact h

mutual
theorem TreeA_mono {h ext : List Obj} {a : Addr} {pv : PV} {L : List Addr}
    (t : TreeA h a pv L) : TreeA (h ++ ext) a pv L := by
  cases t with
  | int hh => exact .int (getPreserve hh)
  | str hh => exact .str (getPreserve hh)
  | list hh ht => exact .list (getPreserve hh) (TreeAList_mono ht)
  | tup hh ht => exact .tup (getPreserve hh) (TreeAList_mono ht)
  | dict hh ht => exact .dict (getPreserve hh) (TreeAEntries_mono ht)

theorem TreeAList_mono {h ext : List Obj} {es : List Addr} {pvs : List PV} {Ls : List Addr}
    (t : TreeAList h es pvs Ls) : TreeAList (h ++ ext) es pvs Ls := by
  cases t with
  | nil => exact .nil
  | cons t1 t2 => exact .cons (TreeA_mono t1) (TreeAList_mono t2)

theorem TreeAEntries_mono {h ext : List Obj} {kvs : List (Addr × Addr)} {spvs : List (String × PV)} {Ls : List Addr}
    (t : TreeAEntries h kvs spvs Ls) : TreeAEntries (h ++ ext) kvs spvs Ls := by
  cases t with
  | nil => exact .nil
  | cons hk t1 t2 =>
    exact .cons (getPreserve hk)
      (TreeA_mono t1) (TreeAEntries_mono t2)
end


theorem size_pos (pv : PV) : 1 ≤ pv.size := by
  cases pv <;> simp [PV.size]

theorem getSet {A : List Obj} {i : Nat} {x : Obj} (b : Nat) (o : Obj)
    (h : A[i]? = some x) (hne : b ≠ i) : (A.set b o)[i]? = some x := by
  rw [List.getElem?_set_ne hne]; exact h

mutual
theorem TreeA_lt {h : List Obj} {a : Addr} {pv : PV} {L : List Addr}
    (t : TreeA h a pv L) : ∀ b ∈ L, b < h.length := by
  cases t with
  | int hh => intro b hb; simp at hb; subst hb; exact (List.getElem?_eq_some.mp hh).1
  | str hh => intro b hb; simp at hb; subst hb; exact (List.getElem?_eq_some.mp hh).1
  | list hh ht =>
    intro b hb
    rcases List.mem_cons.mp hb with rfl | hm
    · exact (List.getElem?_eq_some.mp hh).1
    · exact TreeAList_lt ht b hm
  | tup hh ht =>
    intro b hb
    rcases List.mem_cons.mp hb with rfl | hm
    · exact (List.getElem?_eq_some.mp hh).1
    · exact TreeAList_lt ht b hm
  | dict hh ht =>
    intro b hb
    rcases List.mem_cons.mp hb with rfl | hm
    · exact (List.getElem?_eq_some.mp hh).1
    · exact TreeAEntries_lt ht b hm

theorem TreeAList_lt {h : List Obj} {es : List Addr} {pvs : List PV} {Ls : List Addr}
    (t : TreeAList h es pvs Ls) : ∀ b ∈ Ls, b < h.length := by
  cases t with
  | nil => intro b hb; cases hb
  | cons t1 t2 =>
    intro b hb
    rcases List.mem_append.mp hb with hm | hm
    · exact TreeA_lt t1 b hm
    · exact TreeAList_lt t2 b hm

theorem TreeAEntries_lt {h : List Obj} {kvs : List (Addr × Addr)} {spvs : List (String × PV)}
    {Ls : List Addr} (t : TreeAEntries h kvs spvs Ls) : ∀ b ∈ Ls, b < h.length := by
  cases t with
  | nil => intro b hb; cases hb
  | cons hk t1 t2 =>
    intro b hb
    rcases List.mem_cons.mp hb with rfl | hm
    · exact (List.getElem?_eq_some.mp hk).1
    · rcases List.mem_append.mp hm with hm2 | hm2
      · exact TreeA_lt t1 b hm2
      · exact TreeAEntries_lt t2 b hm2
end

mutual
theorem TreeA_set {h : List Obj} {a : Addr} {pv : PV} {L : List Addr} {b : Nat} {o : Obj}
    (t : TreeA h a pv L) (hb : b ∉ L) : TreeA (h.set b o) a pv L := by
  cases t with
  | int hh => exact .int (getSet b o hh (fun e => hb (by simp [e])))
  | str hh => exact .str (getSet b o hh (fun e => hb (by simp [e])))
  | list hh ht =>
    exact .list (getSet b o hh (fun e => hb (by simp [e])))
      (TreeAList_set ht (fun hm => hb (List.mem_cons_of_mem _ hm)))
  | tup hh ht =>
    exact .tup (getSet b o hh (fun e => hb (by simp [e])))
      (TreeAList_set ht (fun hm => hb (List.mem_cons_of_mem _ hm)))
  | dict hh ht =>
    exact .dict (getSet b o hh (fun e => hb (by simp [e])))
      (TreeAEntries_set ht (fun hm => hb (List.mem_cons_of_mem _ hm)))

theorem TreeAList_set {h : List Obj} {es : List Addr} {pvs : List PV} {Ls : List Addr}
    {b : Nat} {o : Obj} (t : TreeAList h es pvs Ls) (hb : b ∉ Ls) :
    TreeAList (h.set b o) es pvs Ls := by
  cases t with
  | nil => exact .nil
  | cons t1 t2 =>
    refine .cons (TreeA_set t1 ?_) (TreeAList_set t2 ?_)
    · intro hm; exact hb (List.mem_append.mpr (Or.inl hm))
    · intro hm; exact hb (List.mem_append.mpr (Or.inr hm))

theorem TreeAEntries_set {h : List Obj} {kvs : List (Addr × Addr)} {spvs : List (String × PV)}
    {Ls : List Addr} {b : Nat} {o : Obj} (t : TreeAEntries h kvs spvs Ls) (hb : b ∉ Ls) :
    TreeAEntries (h.set b o) kvs spvs Ls := by
  cases t with
  | nil => exact .nil
  | cons hk t1 t2 =>
    refine .cons (getSet b o hk (fun e => hb (by simp [e]))) (TreeA_set t1 ?_)
      (TreeAEntries_set t2 ?_)
    · intro hm; exact hb (List.mem_cons_of_mem _ (List.mem_append.mpr (Or.inl hm)))
    · intro hm; exact hb (List.mem_cons_of_mem _ (List.mem_append.mpr (Or.inr hm)))
end

mutual
theorem view_TreeA {h : List Obj} {a : Addr} {pv : PV} {L : List Addr}
    (t : TreeA h a pv L) : ∀ fuel, pv.size ≤ fuel → view fuel h a = some (pvView pv) := by
  cases t with
  | @int a n hh =>
    intro fuel hf
    rcases fuel with _ | f
    · exact absurd hf (by simp [PV.size])
    · simp [view, hh, pvView]
  | @str a s hh =>
    intro fuel hf
    rcases fuel with _ | f
    · exact absurd hf (by simp [PV.size])
    · simp [view, hh, pvView]
  | @list a es pvs Ls hh ht =>
    intro fuel hf
    rcases fuel with _ | f
    · exact absurd hf (by simp [PV.size])
    · have hs : PV.sizeL pvs ≤ f := by simp [PV.size] at hf; omega
      simp [view, hh, pvView, view_TreeAList ht f hs]
  | @tup a es pvs Ls hh ht =>
    intro fuel hf
    rcases fuel with _ | f
    · exact absurd hf (by simp [PV.size])
    · have hs : PV.sizeL pvs ≤ f := by simp [PV.size] at hf; omega
      simp [view, hh, pvView, view_TreeAList ht f hs]
  | @dict a kvs spvs Ls hh ht =>
    intro fuel hf
    rcases fuel with _ | f
    · exact absurd hf (by simp [PV.size])
    · have hs : PV.sizeE spvs ≤ f := by simp [PV.size] at hf; omega
      simp [view, hh, pvView, view_TreeAEntries ht f hs]

theorem view_TreeAList {h : List Obj} {es : List Addr} {pvs : List PV} {Ls : List Addr}
    (t : TreeAList h es pvs Ls) :
    ∀ fuel, PV.sizeL pvs ≤ fuel → viewList (view fuel h) es = some (pvViewL pvs) := by
  cases t with
  | nil => intro fuel _; simp [viewList, pvViewL]
  | @cons e pv L es pvs Ls t1 t2 =>
    intro fuel hf
    have h1 : pv.size ≤ fuel := le_trans (by simp [PV.sizeL]) hf
    have h2 : PV.sizeL pvs ≤ fuel := le_trans (by simp [PV.sizeL]) hf
    simp [viewList, view_TreeA t1 fuel h1, view_TreeAList t2 fuel h2, pvViewL]

theorem view_TreeAEntries {h : List Obj} {kvs : List (Addr × Addr)} {spvs : List (String × PV)}
    {Ls : List Addr} (t : TreeAEntries h kvs spvs Ls) :
    ∀ fuel, PV.sizeE spvs ≤ fuel →
      viewEntries (view fuel h) kvs = some (pvViewE spvs) := by
  cases t with
  | nil => intro fuel _; simp [viewEntries, pvViewE]
  | @cons k v pv L kvs spvs Ls s hk t1 t2 =>
    intro fuel hf
    have h1 : pv.size ≤ fuel := le_trans (by simp [PV.sizeE]) hf
    have h2 : PV.sizeE spvs ≤ fuel := le_trans (by simp [PV.sizeE]) hf
    have hf1 : 1 ≤ fuel := le_trans (size_pos pv) h1
    rcases fuel with _ | f
    · omega
    · have hkv : view (f + 1) h k = some (SVal.vstr s) := by simp [view, hk]
      simp [viewEntries, hkv, view_TreeA t1 _ h1, view_TreeAEntries t2 _ h2, pvViewE]
end


/-- C1 (counterexample): the claim's universally quantified aliasing property
fails.  In `aliasingCexHeap`, the frozenset `fs` (address 1) occupies two
positions of the input `data = {"a": fs, "b": [fs]}`; after `deepcopy`, the
mapping position reuses the original object (address 1, via the
`_IMMUTABLE_KEY_TYPES` fast path, which bypasses the memo) while the
sequence position receives a fresh copy (address 10, via the reduce path) —
the two positions refer neither to one single object nor to a new one. -/
theorem aliasing_claim_counterexample :
    dictLookup aliasingCexHeap 5 "a" = some 1
    ∧ (dictLookup aliasingCexHeap 5 "b").bind (fun b => seqNth aliasingCexHeap b 0) = some 1
    ∧ (runDC aliasingCexHeap 5).bind (fun p => dictLookup p.2 p.1 "a") = some 1
    ∧ (runDC aliasingCexHeap 5).bind
        (fun p => (dictLookup p.2 p.1 "b").bind (fun b => seqNth p.2 b 0)) = some 10
    ∧ (1 : Addr) ≠ 10 :=
  ⟨rfl, rfl, rfl, rfl, by decide⟩

/-- C1 (amended): aliasing is preserved when the shared object is not in the
mapping fast-path allow-list.  In particular, for `shared = {"k": v}` and
`data = {"a": shared, "b": shared}` (any payload `v`),
`y = deepcopy(data)` satisfies `y["a"] is y["b"]` (both are address 7),
`y["a"] is not shared` (7 ≠ 2), and the one new object is element-wise equal
to `shared`. -/
theorem aliasing_shared_dict (v : Int) :
    (runDC (sharedDictHeap v) 5).bind (fun p => dictLookup p.2 p.1 "a") = some 7
    ∧ (runDC (sharedDictHeap v) 5).bind (fun p => dictLookup p.2 p.1 "b") = some 7
    ∧ (runDC (sharedDictHeap v) 5).bind
        (fun p => (dictLookup p.2 p.1 "a").bind (fun q => p.2[q]?)) = some (Obj.dict [(0, 1)])
    ∧ (7 : Addr) ≠ 2 :=
  ⟨rfl, rfl, rfl, by decide⟩

/-- C3 (counterexample): the mapping fast path is applied to values that are
themselves containers.  `frozenset` is in `_IMMUTABLE_KEY_TYPES`, it is a
container of the spec's data model, and deep-copying `{"a": frozenset({1})}`
reuses the frozenset (address 1) directly at the value position. -/
theorem allowlist_container_counterexample :
    isImmutableKV (Obj.frozenset [0]) = true
    ∧ isContainer (Obj.frozenset [0]) = true
    ∧ (runDC fsValueHeap 3).bind (fun p => dictLookup p.2 p.1 "a") = some 1 :=
  ⟨rfl, rfl, rfl⟩

/-- C3 (amended): the mapping fast path is applied exactly to the
clearly-immutable shapes of `_IMMUTABLE_KEY_TYPES` — every allow-listed
shape is immutable, and the only allow-listed shape that is itself a
container is `frozenset`.  Behaviourally: an `int` value is reused
(address 0), while a `list` value is recursively deep-copied (fresh
address 5, not the original 2). -/
theorem allowlist_shapes :
    (∀ o : Obj, isImmutableKV o = true → isMutable o = false)
    ∧ (∀ o : Obj, isImmutableKV o = true → isContainer o = true →
        ∃ es, o = Obj.frozenset es)
    ∧ (runDC intValueHeap 2).bind (fun p => dictLookup p.2 p.1 "a") = some 0
    ∧ (runDC listValueHeap 3).bind (fun p => dictLookup p.2 p.1 "a") = some 5
    ∧ (5 : Addr) ≠ 2 :=
  ⟨fun o h => by cases o <;> simp_all [isImmutableKV, isMutable],
   fun o h hc => by cases o <;> simp_all [isImmutableKV, isContainer],
   rfl, rfl, by decide⟩

/-- C4 (counterexample): for the fixed tuple-like container `(1, 2)` (an
all-atomic tuple, a container with no shared or cyclic substructure), both
`deepcopy` and `copy` return the *same* top-level object (address 2), not a
different one as the claim requires of every container kind. -/
theorem distinct_identity_counterexample :
    isContainer (Obj.tuple [0, 1]) = true
    ∧ (runDC (atomTupleHeap 1 "x") 2).map (·.1) = some 2
    ∧ (runSC (atomTupleHeap 1 "x") 2).map (·.1) = some 2 :=
  ⟨rfl, rfl, rfl⟩

/-- C4 (amended): for the mutable container kinds — ordered sequence `[m, s]`
(address 2), mapping `{s: m}` (address 3) and set `{m}` (address 4), none
with shared or cyclic substructure — `deepcopy` returns a fresh top-level
object that is element-wise (structurally) equal to the input, and `copy`
returns a fresh top-level object of the same kind holding exactly the same
child references; tuple-like sequences are exempt (shallow copy returns them
unchanged, and deep copy returns them unchanged when no element needed
duplication). -/
theorem mutable_container_copies (m : Int) (s : String) :
    (runDC (mutContainersHeap m s) 2).map (·.1) = some 5
    ∧ (runDC (mutContainersHeap m s) 2).bind (fun p => view 8 p.2 p.1)
        = some (.vlist [.vint m, .vstr s])
    ∧ (runDC (mutContainersHeap m s) 2).bind (fun p => view 8 p.2 2)
        = some (.vlist [.vint m, .vstr s])
    ∧ (runDC (mutContainersHeap m s) 3).map (·.1) = some 5
    ∧ (runDC (mutContainersHeap m s) 3).bind (fun p => view 8 p.2 p.1)
        = some (.vdict [(.vstr s, .vint m)])
    ∧ (runDC (mutContainersHeap m s) 3).bind (fun p => view 8 p.2 3)
        = some (.vdict [(.vstr s, .vint m)])
    ∧ (runDC (mutContainersHeap m s) 4).map (·.1) = some 7
    ∧ (runDC (mutContainersHeap m s) 4).bind (fun p => view 8 p.2 p.1)
        = some (.vset [.vint m])
    ∧ (runDC (mutContainersHeap m s) 4).bind (fun p => view 8 p.2 4)
        = some (.vset [.vint m])
    ∧ runSC (mutContainersHeap m s) 2 = some (5, mutContainersHeap m s ++ [.list [0, 1]])
    ∧ runSC (mutContainersHeap m s) 3 = some (5, mutContainersHeap m s ++ [.dict [(1, 0)]])
    ∧ runSC (mutContainersHeap m s) 4 = some (5, mutContainersHeap m s ++ [.set [0]])
    ∧ (5 : Addr) ≠ 2 ∧ (5 : Addr) ≠ 3 ∧ (5 : Addr) ≠ 4 ∧ (7 : Addr) ≠ 4 :=
  ⟨rfl, rfl, rfl, rfl, rfl, rfl, rfl, rfl, rfl, rfl, rfl, rfl,
   by decide, by decide, by decide, by decide⟩

/-- C5 (counterexample): a tuple containing a container element need not
yield a new tuple.  `((1, 2),)` (address 3) contains the container `(1, 2)`
(address 2), yet `deepcopy` returns address 3 — the original object — because
the inner all-atomic tuple deep-copies to itself. -/
theorem tuple_noop_counterexample :
    isContainer (Obj.tuple [0, 1]) = true
    ∧ seqNth nestedTupleHeap 3 0 = some 2
    ∧ (runDC nestedTupleHeap 3).map (·.1) = some 3 :=
  ⟨rfl, rfl, rfl⟩

/-- C5 (amended): deep-copying a tuple whose every element is atomic returns
the input itself (address 2), while deep-copying a tuple at least one of
whose elements deep-copies to a distinct object — e.g. `([m],)`, whose list
element is duplicated — always yields a fresh tuple (address 4 ≠ 2) holding
the copied elements (the fresh list, address 3). -/
theorem tuple_noop_optimization (m : Int) (s : String) :
    (runDC (atomTupleHeap m s) 2).map (·.1) = some 2
    ∧ (runDC (listTupleHeap m) 2).map (·.1) = some 4
    ∧ (4 : Addr) ≠ 2
    ∧ (runDC (listTupleHeap m) 2).bind (fun p => seqNth p.2 p.1 0) = some 3
    ∧ (3 : Addr) ≠ 1 :=
  ⟨rfl, rfl, by decide, rfl, by decide⟩

/-- C6: a value whose type has no dispatch-table entry, is not a type, and
declares neither override nor any reductor makes both `copy` and `deepcopy`
raise the engine's single error kind `Error` with a message naming the
offending type; exceptions raised by a user override or by a reconstruction
factory propagate unchanged (as `userError`, never wrapped into the engine's
`copyError`). -/
theorem uncopyable_single_error (H : List Obj) (a : Addr) (cls : String)
    (attrs : List (String × Addr)) (sst : Option Addr) (n : Nat)
    (h : H[a]? = some (.inst cls (.mk false none none false none none none) attrs sst)) :
    copy a (initSt H) =
        .error (.copyError ("un(shallow)copyable object of type " ++ cls))
    ∧ deepcopyEntry H none none a (n + 1) =
        .error (.copyError ("un(deep)copyable object of type " ++ cls))
    ∧ (∀ (H₂ : List Obj) (b : Addr) (msg : String),
        H₂[b]? = some (.inst cls
            (.mk false (some (.raiseErr msg)) (some (.raiseErr msg)) false none none none)
            attrs sst) →
        copy b (initSt H₂) = .error (.userError msg)
        ∧ deepcopyEntry H₂ none none b (n + 1) = .error (.userError msg))
    ∧ (∀ (H₂ : List Obj) (b : Addr) (msg : String),
        H₂[b]? = some (.inst cls
            (.mk false none none false none
              (some (.build (.failing msg) [] none none none)) none)
            attrs sst) →
        deepcopyEntry H₂ none none b (n + 1) = .error (.userError msg)) := by
  refine ⟨?_, ?_, fun H₂ b msg h₂ => ⟨?_, ?_⟩, fun H₂ b msg h₂ => ?_⟩
  · simp [copy, initSt, h]
  · simp [deepcopyEntry, deepcopy_succ, deepcopyCore, deepcopyMain, memoGet,
      List.lookup, readObj, h]
  · simp [copy, initSt, h₂, runOv]
  · simp [deepcopyEntry, deepcopy_succ, deepcopyCore, deepcopyMain, memoGet,
      List.lookup, readObj, h₂, runOv]
  · simp [deepcopyEntry, deepcopy_succ, deepcopyCore, deepcopyMain, memoGet,
      List.lookup, readObj, h₂, handleRv, _reconstruct, reconstructBuild, applyFactory]

/-- C6 (witness): a `Widget` instance with no copy capability at all. -/
theorem uncopyable_single_error_witness :
    copy 0 (initSt [Obj.inst "Widget" plainCaps [] none]) =
      .error (.copyError ("un(shallow)copyable object of type " ++ "Widget")) :=
  (uncopyable_single_error [Obj.inst "Widget" plainCaps [] none] 0 "Widget" [] none 0 rfl).1

/-- C7: deep-copying an atomic value — in any heap, at any address, for any
of the atomic kinds (numbers, booleans, strings, bytes, `None`, `Ellipsis`,
`NotImplemented`, types, functions) — returns the value itself and leaves
the memo table without any entry for it: the final state has the untouched
heap, an empty memo table and an empty keep-alive list (only the fast-path
cache pair is set). -/
theorem atomic_skips_memo (H : List Obj) (a : Addr) (o : Obj) (n : Nat)
    (h : H[a]? = some o) (hat : isAtomicObj o = true) :
    deepcopyEntry H none none a (n + 1) =
      .ok (a, { heap := H, memo := [], keepAlive := [], cache := some (a, a) }) := by
  cases o <;> simp_all [isAtomicObj, deepcopyEntry, deepcopy_succ, deepcopyCore,
    deepcopyMain, memoGet, List.lookup, readObj]

/-- C7 (witness): deep-copying the atomic `3`. -/
theorem atomic_skips_memo_witness :
    deepcopyEntry [Obj.int 3] none none 0 1 =
      .ok (0, { heap := [Obj.int 3], memo := [], keepAlive := [], cache := some (0, 0) }) :=
  atomic_skips_memo [Obj.int 3] 0 (Obj.int 3) 0 rfl rfl

/-- C8: whenever the construction phase of `_reconstruct` (deep-copy the
factory args, construct `y`) returns, the memo already maps `id(x)` to `y` —
before any supplementary state is deep-copied or applied.  Consequently a
self-reference reached while copying the state resolves to `y`: deep-copying
`x = Node(); x.self = x` (reduced to `(Node, (), {"self": x})`) yields the
new object 3 whose `self` attribute is 3 itself (and not the original 2). -/
theorem reconstruct_memoizes_before_state
    (f : Addr → DState → Except PyErr (Addr × DState)) (x : Addr) (fac : Factory)
    (args : List Addr) (st : DState) (y : Addr) (st' : DState)
    (h : reconstructBuild f true x fac args st = .ok (y, st')) :
    memoGet st'.memo x = some y
    ∧ (runDC selfRefHeap 2).map (·.1) = some 3
    ∧ (runDC selfRefHeap 2).bind (fun p => attrLookup p.2 p.1 "self") = some 3
    ∧ (3 : Addr) ≠ 2 := by
  refine ⟨?_, rfl, rfl, by decide⟩
  unfold reconstructBuild at h
  rcases hcc : (if (true && !args.isEmpty) = true then copyChildren f args st
      else Except.ok (args, st)) with err | p
  · rw [hcc] at h; cases h
  · rw [hcc] at h
    rcases haf : applyFactory fac p.1 p.2 with err | q
    · simp [haf] at h
    · simp [haf] at h
      obtain ⟨hy, hst⟩ := h
      subst hy hst
      simp [memoGet, List.lookup]

/-- C8 (witness): reconstructing an empty instance of class `C` from the
empty state, starting at the empty heap. -/
theorem reconstruct_memoizes_before_state_witness :
    memoGet (DState.mk [Obj.inst "C" plainCaps [] none] [(0, 0)] [] none).memo 0 = some 0
    ∧ (runDC selfRefHeap 2).map (·.1) = some 3
    ∧ (runDC selfRefHeap 2).bind (fun p => attrLookup p.2 p.1 "self") = some 3
    ∧ (3 : Addr) ≠ 2 :=
  reconstruct_memoizes_before_state idF 0 (.newInst "C" plainCaps) [] (initSt [])
    0 (DState.mk [Obj.inst "C" plainCaps [] none] [(0, 0)] [] none) rfl

/-- C10: the one-entry fast-path cache lives on the `deepcopy` function
itself.  (i) A top-level call with no memo argument resets it, so the result
is independent of the ambient cache.  (ii) With a caller-supplied memo table
the cache is kept and consulted *before* the memo lookup: with the memo
claiming `0 ↦ 1`, the call returns 2 when the ambient cache holds `(0, 2)`
and 1 when the ambient cache is empty — two runs of the same call returning
different objects depending on the immediately preceding call. -/
theorem cache_scope :
    (∀ (c1 c2 : Option (Addr × Addr)) (H : List Obj) (x : Addr) (fuel : Nat),
        deepcopyEntry H c1 none x fuel = deepcopyEntry H c2 none x fuel)
    ∧ deepcopyEntry cacheHeap (some (0, 2)) (some [(0, 1)]) 0 8 =
        .ok (2, { heap := cacheHeap, memo := [(0, 1)], keepAlive := [], cache := some (0, 2) })
    ∧ deepcopyEntry cacheHeap none (some [(0, 1)]) 0 8 =
        .ok (1, { heap := cacheHeap, memo := [(0, 1)], keepAlive := [], cache := some (0, 1) })
    ∧ (2 : Addr) ≠ 1 :=
  ⟨fun _ _ _ _ _ => rfl, rfl, rfl, by decide⟩

end CopyOpt
